import Mathlib

/-!
Verification of the AlgoBuddy-AgentX trading backend.

This file gives a shallow embedding, in Lean 4, of the parts of the
repository that the verified properties talk about:

* `RiskManager`  — `AI_service/agents/risk_manager.py`
* `Evaluator`    — `AI_service/agents/evaluator_agent.py`
* `Backtest`     — `AI_service/agents/backtest_agent.py`
* `Sentiment`    — `AI_service/services/sentiment_analyzer.py`
* `Api`          — `backend/api/strategies.py`, `backend/api/trading.py`

Python floats are modelled by `ℚ`, Python `int` by `ℤ`, dictionaries by
structures or association lists, and raised exceptions by `Except`.
-/

/-- Python's `int(x)` applied to a float/rational: truncation toward zero. -/
def pyInt (q : ℚ) : ℤ := if 0 ≤ q then q.floor else -(-q).floor

namespace RiskManager

/-- One entry of `self.positions` (`risk_manager.py`, `_update_position`). -/
structure Position where
  quantity : ℤ
  avg_price : ℚ
  value : ℚ
  strategies : List String
deriving DecidableEq

/-- The mutable fields of `RiskManagerAgent` that `check_risk` reads or
writes.  `positions` is the Python dict, as an association list in
insertion order. -/
structure RiskState where
  portfolio_value : ℚ
  positions : List (String × Position)
  daily_pnl : ℚ
  max_portfolio_value : ℚ
deriving DecidableEq

/-- `self.max_position_size = 0.1`. -/
def max_position_size : ℚ := 1/10
/-- `self.max_portfolio_risk = 0.02`. -/
def max_portfolio_risk : ℚ := 1/50
/-- `self.max_daily_loss = 0.05`. -/
def max_daily_loss : ℚ := 1/20
/-- `self.max_drawdown = 0.15`. -/
def max_drawdown : ℚ := 3/20
/-- `self.stop_loss_pct = 0.02`. -/
def stop_loss_pct : ℚ := 1/50
/-- `self.take_profit_pct = 0.06`. -/
def take_profit_pct : ℚ := 3/50

/-- `_get_current_price`: the mock price table, default 100. -/
def get_current_price (symbol : String) : ℚ :=
  ((([("AAPL", 150), ("GOOGL", 2800), ("MSFT", 300), ("TSLA", 250),
      ("AMZN", 3300)] : List (String × ℚ)).lookup symbol).getD 100)

/-- `_check_position_size`: approved flag only (the formatted message
string of the Python dict is elided; it carries no further data). -/
def check_position_size (position_risk : ℚ) : Bool :=
  decide (position_risk ≤ max_position_size)

/-- `_check_portfolio_risk` (approved flag). -/
def check_portfolio_risk (trade_value portfolio_value : ℚ) : Bool :=
  decide (trade_value * stop_loss_pct / portfolio_value ≤ max_portfolio_risk)

/-- `_check_daily_loss_limit` (approved flag). -/
def check_daily_loss_limit (s : RiskState) : Bool :=
  decide (-max_daily_loss ≤ s.daily_pnl / s.portfolio_value)

/-- `_check_drawdown_limit` (approved flag). -/
def check_drawdown_limit (s : RiskState) : Bool :=
  decide ((s.max_portfolio_value - s.portfolio_value) / s.max_portfolio_value
            ≤ max_drawdown)

/-- `_check_total_exposure` (approved flag).
`current_exposure = self.positions.get(symbol, \x7b\x7d).get("value", 0)`. -/
def check_total_exposure (s : RiskState) (symbol : String)
    (trade_value : ℚ) : Bool :=
  let current_exposure := ((s.positions.lookup symbol).map Position.value).getD 0
  decide ((current_exposure + trade_value) / s.portfolio_value
            ≤ max_position_size * 2)

/-- `_update_position`: insert-or-replace in the positions dict, keeping
insertion order as a Python dict does. -/
def set_position : List (String × Position) → String → Position →
    List (String × Position)
  | [], sym, p => [(sym, p)]
  | (k, v) :: rest, sym, p =>
      if k = sym then (sym, p) :: rest else (k, v) :: set_position rest sym p

/-- `_update_position` from `risk_manager.py`. -/
def update_position (s : RiskState) (symbol : String) (quantity : ℤ)
    (price : ℚ) (strategy_id : String) : RiskState :=
  let pos := (s.positions.lookup symbol).getD
    { quantity := 0, avg_price := 0, value := 0, strategies := [] }
  let new_quantity := pos.quantity + quantity
  let new_avg_price :=
    if new_quantity ≠ 0 then
      ((pos.quantity : ℚ) * pos.avg_price + (quantity : ℚ) * price)
        / (new_quantity : ℚ)
    else 0
  let newPos : Position :=
    { quantity := new_quantity, avg_price := new_avg_price,
      value := (new_quantity : ℚ) * price,
      strategies := pos.strategies ++ [strategy_id] }
  { s with positions := set_position s.positions symbol newPos }

/-- The dictionary returned by `check_risk` (the per-check message strings
are elided; the per-check approved flags are kept in `checks`). -/
structure RiskResult where
  approved : Bool
  reason : String
  checks : List (String × Bool)
  position_risk : ℚ
  trade_value : ℚ
deriving DecidableEq

/-- `check_risk` from `risk_manager.py`.  The Python method mutates
`self`; here it returns the result dict together with the new state.
`price?` models the `price: float = None` default, resolved through
`_get_current_price`.  The `except` branch of the Python code is
unreachable in this total model (no operation here raises). -/
def check_risk (s : RiskState) (strategy_id symbol : String)
    (quantity : ℤ) (price? : Option ℚ) : RiskResult × RiskState :=
  let price := price?.getD (get_current_price symbol)
  let trade_value := (quantity : ℚ) * price
  let position_risk := trade_value / s.portfolio_value
  let checks : List (String × Bool) :=
    [("position_size", check_position_size position_risk),
     ("portfolio_risk", check_portfolio_risk trade_value s.portfolio_value),
     ("daily_loss", check_daily_loss_limit s),
     ("drawdown", check_drawdown_limit s),
     ("exposure", check_total_exposure s symbol trade_value)]
  let all_checks_passed := checks.all (fun c => c.2)
  if all_checks_passed then
    ({ approved := true, reason := "All risk checks passed",
       checks := checks, position_risk := position_risk,
       trade_value := trade_value },
     update_position s symbol quantity price strategy_id)
  else
    let failed_checks := (checks.filter (fun c => !c.2)).map (fun c => c.1)
    ({ approved := false,
       reason := "Failed risk checks: " ++ String.intercalate ", " failed_checks,
       checks := checks, position_risk := position_risk,
       trade_value := trade_value },
     s)

/-- `calculate_position_size` from `risk_manager.py` (the `symbol`
argument is unused by the Python code as well). -/
def calculate_position_size (s : RiskState) (_symbol : String)
    (price : ℚ) (confidence : ℚ) : ℤ :=
  let base_risk := max_portfolio_risk * confidence
  let max_position_value := s.portfolio_value * base_risk / stop_loss_pct
  let max_position_value2 :=
    min max_position_value (s.portfolio_value * max_position_size)
  let quantity := pyInt (max_position_value2 / price)
  max 1 quantity

end RiskManager

namespace Evaluator

/-- The performance-metrics dictionary consumed by the evaluator; every
field defaults to 0 in the Python code (`metrics.get(key, 0)`), so the
structure holds the resolved values. -/
structure Metrics where
  total_return : ℚ
  sharpe_ratio : ℚ
  max_drawdown : ℚ
  win_rate : ℚ
  total_trades : ℚ
deriving DecidableEq

/-- `self.criteria` from `evaluator_agent.py`. -/
structure Criteria where
  min_total_return : ℚ
  min_sharpe_ratio : ℚ
  max_drawdown : ℚ
  min_win_rate : ℚ
  min_trades : ℚ

/-- `self.criteria = ...` (values from the constructor). -/
def criteria : Criteria :=
  { min_total_return := 5, min_sharpe_ratio := 1/2, max_drawdown := -20,
    min_win_rate := 40, min_trades := 5 }

/-- The Total Return bucket (30 points) of `_calculate_evaluation_score`. -/
def return_score (total_return : ℚ) : ℚ :=
  if 20 ≤ total_return then 30
  else if 10 ≤ total_return then 20
  else if 5 ≤ total_return then 15
  else if 0 ≤ total_return then 10
  else max 0 (10 + total_return)

/-- The Sharpe Ratio bucket (25 points). -/
def sharpe_score (sharpe_ratio : ℚ) : ℚ :=
  if 3/2 ≤ sharpe_ratio then 25
  else if 1 ≤ sharpe_ratio then 20
  else if 1/2 ≤ sharpe_ratio then 15
  else if 0 ≤ sharpe_ratio then 10
  else max 0 (5 + sharpe_ratio * 10)

/-- The Maximum Drawdown bucket (20 points). -/
def drawdown_score (max_drawdown : ℚ) : ℚ :=
  if -5 ≤ max_drawdown then 20
  else if -10 ≤ max_drawdown then 15
  else if -15 ≤ max_drawdown then 10
  else if -20 ≤ max_drawdown then 5
  else max 0 (5 + max_drawdown / 4)

/-- The Win Rate bucket (15 points). -/
def win_rate_score (win_rate : ℚ) : ℚ :=
  if 70 ≤ win_rate then 15
  else if 60 ≤ win_rate then 12
  else if 50 ≤ win_rate then 10
  else if 40 ≤ win_rate then 8
  else max 0 (win_rate / 5)

/-- The Number of Trades bucket (10 points). -/
def trades_score (total_trades : ℚ) : ℚ :=
  if 20 ≤ total_trades then 10
  else if 15 ≤ total_trades then 8
  else if 10 ≤ total_trades then 6
  else if 5 ≤ total_trades then 4
  else max 0 (total_trades / 2)

/-- `_calculate_evaluation_score`: the five buckets accumulate into
`score`, and the return value is `min(max_score, max(0, score))`. -/
def calculate_evaluation_score (m : Metrics) : ℚ :=
  let score := return_score m.total_return + sharpe_score m.sharpe_ratio
    + drawdown_score m.max_drawdown + win_rate_score m.win_rate
    + trades_score m.total_trades
  min 100 (max 0 score)

/-- `_determine_viability` from `evaluator_agent.py`. -/
def determine_viability (m : Metrics) (score : ℚ) : String :=
  if m.total_return < criteria.min_total_return then
    "REJECTED - Insufficient returns"
  else if m.sharpe_ratio < criteria.min_sharpe_ratio then
    "REJECTED - Poor risk-adjusted returns"
  else if m.max_drawdown < criteria.max_drawdown then
    "REJECTED - Excessive drawdown"
  else if m.win_rate < criteria.min_win_rate then
    "REJECTED - Low win rate"
  else if m.total_trades < criteria.min_trades then
    "REJECTED - Insufficient trading activity"
  else if 80 ≤ score then "APPROVED - Excellent performance"
  else if 70 ≤ score then "APPROVED - Good performance"
  else if 60 ≤ score then "CONDITIONAL - Acceptable with improvements"
  else "REJECTED - Poor overall performance"

/-- All five minimum criteria of `self.criteria` hold. -/
def passes_criteria (m : Metrics) : Prop :=
  criteria.min_total_return ≤ m.total_return ∧
  criteria.min_sharpe_ratio ≤ m.sharpe_ratio ∧
  criteria.max_drawdown ≤ m.max_drawdown ∧
  criteria.min_win_rate ≤ m.win_rate ∧
  criteria.min_trades ≤ m.total_trades

instance (m : Metrics) : Decidable (passes_criteria m) := by
  unfold passes_criteria; infer_instance

/-- The viability string is one of the two APPROVED labels. -/
def label_is_approved (s : String) : Bool :=
  decide (s = "APPROVED - Excellent performance") ||
  decide (s = "APPROVED - Good performance")

/-- The viability string is the CONDITIONAL label. -/
def label_is_conditional (s : String) : Bool :=
  decide (s = "CONDITIONAL - Acceptable with improvements")

/-- The viability string is one of the REJECTED labels. -/
def label_is_rejected (s : String) : Bool :=
  decide (s = "REJECTED - Insufficient returns") ||
  decide (s = "REJECTED - Poor risk-adjusted returns") ||
  decide (s = "REJECTED - Excessive drawdown") ||
  decide (s = "REJECTED - Low win rate") ||
  decide (s = "REJECTED - Insufficient trading activity") ||
  decide (s = "REJECTED - Poor overall performance")

end Evaluator

namespace Backtest

/-- One historical row.  `_execute_backtest` reads only the standardized
`close` and `date` columns of the data frame; the other OHLCV columns do
not influence it and are omitted. -/
structure Row where
  date : String
  close : ℚ
deriving DecidableEq

/-- The `action` field of a trade record. -/
inductive Action where
  | BUY
  | SELL
deriving DecidableEq

/-- A trade record appended to `trades`.  BUY records carry a `cost` key
and no `revenue` key; SELL records carry `revenue` and no `cost`; the
`Option` fields model the presence or absence of the dict keys (read back
with `t.get(key, 0)`). -/
structure Trade where
  date : String
  action : Action
  shares : ℤ
  price : ℚ
  cost : Option ℚ
  revenue : Option ℚ
  confidence : ℚ
deriving DecidableEq

/-- The dict returned by a compiled `trading_strategy` function; the
fields are read with defaults (`signal` = HOLD, `confidence` = 0.5,
`position_size` = capital * 0.1), so the structure holds the resolved
values. -/
structure StratResult where
  signal : String
  confidence : ℚ
  position_size : ℚ
deriving DecidableEq

/-- One entry of `equity_curve`. -/
structure EquityPoint where
  date : String
  portfolio_value : ℚ
  capital : ℚ
  position : ℤ
  price : ℚ
deriving DecidableEq

/-- The loop state of `_execute_backtest`. -/
structure BTState where
  capital : ℚ
  position : ℤ
  trades : List Trade
  equity_curve : List EquityPoint
deriving DecidableEq

/-- The dict returned by `_execute_backtest`. -/
structure BTResult where
  final_capital : ℚ
  total_return : ℚ
  trades : List Trade
  equity_curve : List EquityPoint
  initial_capital : ℚ
deriving DecidableEq

/-- A strategy function: called on the data prefix `data.iloc[:i+1]` and
the current capital (the fixed `"medium"` risk argument is dropped).
`none` models the strategy call raising an exception, which the
`try/except` of the loop body turns into `continue`. -/
def Strategy : Type := List Row → ℚ → Option StratResult

/-- The BUY record appended by `_execute_backtest` at a row. -/
def buy_record (row : Row) (res : StratResult) : Trade :=
  { date := row.date, action := Action.BUY,
    shares := pyInt (res.position_size / row.close), price := row.close,
    cost := some ((pyInt (res.position_size / row.close) : ℚ) * row.close),
    revenue := none, confidence := res.confidence }

/-- The SELL record appended by `_execute_backtest` at a row. -/
def sell_record (row : Row) (st : BTState) (res : StratResult) : Trade :=
  { date := row.date, action := Action.SELL, shares := st.position,
    price := row.close, cost := none,
    revenue := some ((st.position : ℚ) * row.close),
    confidence := res.confidence }

/-- One iteration of the `for i in range(len(data))` loop of
`_execute_backtest`: `pref` is `data.iloc[:i+1]` and `row` its last row.
Rows with fewer than 20 rows of history, and rows where the strategy
raises, leave the state unchanged (`continue`). -/
def step (strategy : Strategy) (pref : List Row) (row : Row)
    (st : BTState) : BTState :=
  if pref.length < 20 then st
  else
    match strategy pref st.capital with
    | none => st
    | some res =>
      let price := row.close
      let st1 :=
        if res.signal = "BUY" ∧ st.position = 0 ∧ (6 : ℚ)/10 < res.confidence then
          let shares := pyInt (res.position_size / price)
          if 0 < shares then
            { st with
              capital := st.capital - (shares : ℚ) * price,
              position := shares,
              trades := st.trades ++ [buy_record row res] }
          else st
        else if res.signal = "SELL" ∧ 0 < st.position ∧ (6 : ℚ)/10 < res.confidence then
          { st with
            capital := st.capital + (st.position : ℚ) * price,
            position := 0,
            trades := st.trades ++ [sell_record row st res] }
        else st
      { st1 with
        equity_curve := st1.equity_curve ++
          [{ date := row.date,
             portfolio_value := st1.capital + (st1.position : ℚ) * price,
             capital := st1.capital, position := st1.position,
             price := price }] }

/-- The main loop: `past` holds the rows already consumed, `rest` the
rows still to process, so the strategy sees the prefix `past ++ [r]`. -/
def runRows (strategy : Strategy) : List Row → List Row → BTState → BTState
  | _, [], st => st
  | past, r :: rs, st =>
      runRows strategy (past ++ [r]) rs (step strategy (past ++ [r]) r st)

/-- The state `_execute_backtest` starts from. -/
def init_state (initial_capital : ℚ) : BTState :=
  { capital := initial_capital, position := 0, trades := [],
    equity_curve := [] }

/-- The final SELL record written by the close-remaining-position step. -/
def closing_record (last : Row) (st : BTState) : Trade :=
  { date := last.date, action := Action.SELL, shares := st.position,
    price := last.close, cost := none,
    revenue := some ((st.position : ℚ) * last.close), confidence := 1 }

/-- `_execute_backtest` from `backtest_agent.py`: run the loop, close any
remaining position at the last row's close price, and report
`final_capital` and `total_return`. -/
def execute_backtest (strategy : Strategy) (data : List Row)
    (initial_capital : ℚ) : BTResult :=
  let st := runRows strategy [] data (init_state initial_capital)
  let st2 :=
    if 0 < st.position then
      match data.getLast? with
      | some last =>
          { st with
            capital := st.capital + (st.position : ℚ) * last.close,
            position := 0,
            trades := st.trades ++ [closing_record last st] }
      | none => st
    else st
  { final_capital := st2.capital,
    total_return := (st2.capital - initial_capital) / initial_capital * 100,
    trades := st2.trades, equity_curve := st2.equity_curve,
    initial_capital := initial_capital }

/-- The win-rate portion of `_calculate_performance_metrics`
(`backtest_agent.py` lines 619-624): a trade is counted as profitable
when `t.get('revenue', 0) > t.get('cost', 0)`. -/
def win_rate (trades : List Trade) : ℚ :=
  if trades.isEmpty then 0
  else ((trades.filter
          (fun t => decide (t.cost.getD 0 < t.revenue.getD 0))).length : ℚ)
        / (trades.length : ℚ) * 100

/-- The position implied by replaying a trade sequence from position `p`:
a BUY opens `t.shares`, a SELL flattens to 0. -/
def endPos : List Trade → ℤ → ℤ
  | [], p => p
  | t :: ts, _ => endPos ts (if t.action = Action.BUY then t.shares else 0)

/-- The trade list strictly alternates: from a flat position the next
record must be a BUY of positively many shares; from an open position the
next record must be a SELL of exactly the open share count. -/
def seqOk : List Trade → ℤ → Bool
  | [], _ => true
  | t :: ts, p =>
      if p = 0 then
        decide (t.action = Action.BUY) && decide (0 < t.shares) &&
          seqOk ts t.shares
      else
        decide (t.action = Action.SELL) && decide (t.shares = p) &&
          seqOk ts 0

/-- The sum of the recorded BUY costs (`cost` is absent, i.e. 0, on SELL
records). -/
def sumCosts (trades : List Trade) : ℚ :=
  (trades.map (fun t => t.cost.getD 0)).sum

/-- The sum of the recorded SELL revenues (`revenue` is absent, i.e. 0,
on BUY records). -/
def sumRevenues (trades : List Trade) : ℚ :=
  (trades.map (fun t => t.revenue.getD 0)).sum

/-- Shape of the records `_execute_backtest` writes: BUY records have no
`revenue` key and a nonnegative `cost`; SELL records have no `cost` key. -/
def trade_shape_ok (t : Trade) : Bool :=
  match t.action with
  | Action.BUY => decide (t.revenue = none) && decide (0 ≤ t.cost.getD 0)
  | Action.SELL => decide (t.cost = none)

/-- Follows the claim's words, not the source: the standard win rate —
pair each SELL with the BUY that opened the position it closes (trades
alternate BUY, SELL), call the round trip profitable when the sell
revenue exceeds the buy cost, and report 100 times the profitable
fraction. -/
def round_trips : List Trade → List (ℚ × ℚ)
  | [] => []
  | [_] => []
  | b :: s :: rest => (b.cost.getD 0, s.revenue.getD 0) :: round_trips rest

/-- Follows the claim's words, not the source: 100 times the fraction of
round-trip trades whose sell revenue exceeds the buy cost paid. -/
def claim_win_rate (trades : List Trade) : ℚ :=
  let rts := round_trips trades
  if rts.isEmpty then 0
  else ((rts.filter (fun p => decide (p.1 < p.2))).length : ℚ)
        / (rts.length : ℚ) * 100

/-- A concrete strategy for concrete runs: BUY on the first row that has
20 rows of history, HOLD afterwards. -/
def sampleStrategy : Strategy := fun pref _cap =>
  if pref.length = 20 then some { signal := "BUY", confidence := 9/10, position_size := 100 }
  else some { signal := "HOLD", confidence := 9/10, position_size := 100 }

/-- Concrete data: 20 rows at close 100, then one last row at close 50,
so the single BUY at 100 is closed at a loss at 50. -/
def sampleData : List Row :=
  (List.range 20).map (fun i => { date := toString i, close := 100 })
    ++ [{ date := "20", close := 50 }]

/-- A strategy that signals BUY on every row, for concrete runs. -/
def constantBuy : Strategy := fun _ _ =>
  some { signal := "BUY", confidence := 9/10, position_size := 1000 }

/-- A concrete row, for concrete runs. -/
def row100 : Row := { date := "0", close := 100 }

/-- The coupling invariant of the `_execute_backtest` loop: the recorded
trades alternate BUY/SELL from a flat start, replaying them yields the
tracked position, the position is never negative, the tracked capital is
the initial capital minus recorded BUY costs plus recorded SELL revenues,
and every recorded equity point has a nonnegative position. -/
def Inv (init : ℚ) (st : BTState) : Prop :=
  seqOk st.trades 0 = true ∧
  endPos st.trades 0 = st.position ∧
  0 ≤ st.position ∧
  st.capital = init - sumCosts st.trades + sumRevenues st.trades ∧
  st.equity_curve.all (fun ep => decide (0 ≤ ep.position)) = true

end Backtest

namespace Sentiment

/-- The four sentiment methods that can appear in `methods_used`. -/
inductive SMethod where
  | financial_keywords
  | vader
  | textblob
  | transformer
deriving DecidableEq

/-- The per-method result dict (its `score` and `confidence` keys). -/
structure MethodScore where
  score : ℚ
  confidence : ℚ
deriving DecidableEq

/-- The `weights` dict of `_combine_sentiment_results`. -/
def weight : SMethod → ℚ
  | SMethod.financial_keywords => 4/10
  | SMethod.vader => 3/10
  | SMethod.textblob => 2/10
  | SMethod.transformer => 1/10

/-- The dict returned by `_combine_sentiment_results`. -/
structure Combined where
  sentiment_score : ℚ
  sentiment_label : String
  confidence_score : ℚ
deriving DecidableEq

/-- `_combine_sentiment_results` from `sentiment_analyzer.py`.
`results` maps each method to its result; `analyze_sentiment` guarantees
an entry for every used method, and every method has a weight, so the
`method in results and method in weights` guard of the loop always
holds. -/
def combine_sentiment_results (results : SMethod → MethodScore)
    (methods_used : List SMethod) : Combined :=
  if methods_used.isEmpty then
    { sentiment_score := 0, sentiment_label := "neutral",
      confidence_score := 0 }
  else
    let total_score :=
      (methods_used.map (fun m => (results m).score * weight m)).sum
    let total_weight := (methods_used.map (fun m => weight m)).sum
    let final_score := if 0 < total_weight then total_score / total_weight else 0
    let final_label :=
      if (1 : ℚ)/10 < final_score then "positive"
      else if final_score < -(1 : ℚ)/10 then "negative"
      else "neutral"
    let confidence_scores := methods_used.map (fun m => (results m).confidence)
    let final_confidence :=
      if confidence_scores.isEmpty then 0
      else confidence_scores.sum / (confidence_scores.length : ℚ)
    { sentiment_score := final_score, sentiment_label := final_label,
      confidence_score := final_confidence }

/-- Concrete per-method results, for concrete runs. -/
def sampleResults : SMethod → MethodScore := fun _ =>
  { score := 1/2, confidence := 1 }

/-- A concrete `methods_used` list. -/
def sampleMethods : List SMethod := [SMethod.financial_keywords]

end Sentiment

namespace Api

/-- FastAPI's `HTTPException` (status code and detail). -/
structure HTTPError where
  status_code : ℕ
  detail : String
deriving DecidableEq

/-- `str(e)` for an `HTTPException`, as Starlette renders it. -/
def http_error_str (e : HTTPError) : String :=
  toString e.status_code ++ ": " ++ e.detail

/-- A row of the `strategies` table (the columns the handlers touch). -/
structure StrategyRecord where
  id : ℤ
  name : String
  symbol : String
  status : String
deriving DecidableEq

/-- A row of the `trades` table (the columns the handlers touch). -/
structure TradeRecord where
  trade_id : String
  symbol : String
  quantity : ℤ
  price : ℚ
deriving DecidableEq

/-- `GET /strategies/\x7bstrategy_id\x7d` (`strategies.py`,
`get_strategy`).  The whole body, including the `raise
HTTPException(404)` for a missing record, sits inside the `try` block;
`except Exception as e` catches any exception raised there — the 404
included, since FastAPI's `HTTPException` subclasses `Exception` — and
re-raises `HTTPException(500, detail=str(e))`. -/
def get_strategy (db : List StrategyRecord) (strategy_id : ℤ) :
    Except HTTPError StrategyRecord :=
  let body : Except HTTPError StrategyRecord :=
    match db.find? (fun s => s.id == strategy_id) with
    | none => Except.error { status_code := 404, detail := "Strategy not found" }
    | some s => Except.ok s
  match body with
  | Except.ok s => Except.ok s
  | Except.error e =>
      Except.error { status_code := 500, detail := http_error_str e }

/-- `GET /trades/\x7btrade_id\x7d` (`trading.py`, `get_trade`): same
try/except shape as `get_strategy`. -/
def get_trade (db : List TradeRecord) (trade_id : String) :
    Except HTTPError TradeRecord :=
  let body : Except HTTPError TradeRecord :=
    match db.find? (fun t => t.trade_id == trade_id) with
    | none => Except.error { status_code := 404, detail := "Trade not found" }
    | some t => Except.ok t
  match body with
  | Except.ok t => Except.ok t
  | Except.error e =>
      Except.error { status_code := 500, detail := http_error_str e }

/-- The HTTP status the handler responds with: the raised exception's
status, if one is raised. -/
def error_status {α : Type} : Except HTTPError α → Option ℕ
  | Except.error e => some e.status_code
  | Except.ok _ => none

/-- A concrete strategies table. -/
def sampleStrategies : List StrategyRecord :=
  [{ id := 1, name := "mean-reversion", symbol := "AAPL", status := "active" }]

/-- A concrete trades table. -/
def sampleTrades : List TradeRecord :=
  [{ trade_id := "T1", symbol := "AAPL", quantity := 10, price := 150 }]

end Api

namespace RiskManager

/-- A concrete risk-manager state (the constructor's initial values). -/
def sampleState : RiskState :=
  { portfolio_value := 100000, positions := [], daily_pnl := 0,
    max_portfolio_value := 100000 }

end RiskManager

/-! ## Theorems -/

/-- If a rational is below 1, Python's `int()` of it is at most 0. -/
lemma pyInt_nonpos_of_lt_one (q : ℚ) (h : q < 1) : pyInt q ≤ 0 := by
  unfold pyInt
  split
  · have h1 : ¬ (1 : ℤ) ≤ q.floor := by
      rw [Rat.le_floor]
      push_cast
      exact not_le.mpr h
    omega
  · next hq =>
    have h0 : (0 : ℤ) ≤ (-q).floor := by
      rw [Rat.le_floor]
      push_cast
      linarith [not_le.mp hq]
    omega

/-- Claim C1: for the GET-by-id endpoints, a missing record does NOT
produce a 404: the `HTTPException(404)` raised inside the `try` block is
caught by `except Exception` and re-raised with status 500.  An existing
id is returned unchanged.  Evaluated at concrete inputs: looking up an
absent strategy id (99, and 1 in an empty table) or an absent trade id
("T9") yields status 500, while present ids return the stored record. -/
theorem get_by_id_missing_returns_500 :
    Api.error_status (Api.get_strategy Api.sampleStrategies 99) = some 500 ∧
    Api.error_status (Api.get_strategy [] 1) = some 500 ∧
    Api.error_status (Api.get_trade Api.sampleTrades "T9") = some 500 ∧
    Api.get_strategy Api.sampleStrategies 1 =
      Except.ok { id := 1, name := "mean-reversion", symbol := "AAPL",
                  status := "active" } ∧
    Api.get_trade Api.sampleTrades "T1" =
      Except.ok { trade_id := "T1", symbol := "AAPL", quantity := 10,
                  price := 150 } :=
  ⟨rfl, rfl, rfl, rfl, rfl⟩

/-- The return bucket contributes between 0 and 30 points. -/
lemma return_score_bounds (x : ℚ) :
    0 ≤ Evaluator.return_score x ∧ Evaluator.return_score x ≤ 30 := by
  unfold Evaluator.return_score
  split_ifs with h1 h2 h3 h4
  case _ | _ | _ | _ => constructor <;> norm_num
  case _ =>
    push_neg at h4
    exact ⟨le_max_left 0 _, max_le (by norm_num) (by linarith)⟩

/-- The Sharpe bucket contributes between 0 and 25 points. -/
lemma sharpe_score_bounds (x : ℚ) :
    0 ≤ Evaluator.sharpe_score x ∧ Evaluator.sharpe_score x ≤ 25 := by
  unfold Evaluator.sharpe_score
  split_ifs with h1 h2 h3 h4
  case _ | _ | _ | _ => constructor <;> norm_num
  case _ =>
    push_neg at h4
    exact ⟨le_max_left 0 _, max_le (by norm_num) (by linarith)⟩

/-- The drawdown bucket contributes between 0 and 20 points. -/
lemma drawdown_score_bounds (x : ℚ) :
    0 ≤ Evaluator.drawdown_score x ∧ Evaluator.drawdown_score x ≤ 20 := by
  unfold Evaluator.drawdown_score
  split_ifs with h1 h2 h3 h4
  case _ | _ | _ | _ => constructor <;> norm_num
  case _ =>
    push_neg at h4
    exact ⟨le_max_left 0 _, max_le (by norm_num) (by linarith)⟩

/-- The win-rate bucket contributes between 0 and 15 points. -/
lemma win_rate_score_bounds (x : ℚ) :
    0 ≤ Evaluator.win_rate_score x ∧ Evaluator.win_rate_score x ≤ 15 := by
  unfold Evaluator.win_rate_score
  split_ifs with h1 h2 h3 h4
  case _ | _ | _ | _ => constructor <;> norm_num
  case _ =>
    push_neg at h4
    exact ⟨le_max_left 0 _, max_le (by norm_num) (by linarith)⟩

/-- The trade-count bucket contributes between 0 and 10 points. -/
lemma trades_score_bounds (x : ℚ) :
    0 ≤ Evaluator.trades_score x ∧ Evaluator.trades_score x ≤ 10 := by
  unfold Evaluator.trades_score
  split_ifs with h1 h2 h3 h4
  case _ | _ | _ | _ => constructor <;> norm_num
  case _ =>
    push_neg at h4
    exact ⟨le_max_left 0 _, max_le (by norm_num) (by linarith)⟩

/-- Claim C3: for every metrics dictionary the evaluation score lies in
[0, 100] and equals the (trivially clamped) sum of the five bucket
scores; each bucket contributes a nonnegative amount bounded by 30, 25,
20, 15 and 10 points respectively. -/
theorem evaluation_score_decomposition (m : Evaluator.Metrics) :
    Evaluator.calculate_evaluation_score m
      = Evaluator.return_score m.total_return
        + Evaluator.sharpe_score m.sharpe_ratio
        + Evaluator.drawdown_score m.max_drawdown
        + Evaluator.win_rate_score m.win_rate
        + Evaluator.trades_score m.total_trades ∧
    0 ≤ Evaluator.calculate_evaluation_score m ∧
    Evaluator.calculate_evaluation_score m ≤ 100 ∧
    (0 ≤ Evaluator.return_score m.total_return ∧
      Evaluator.return_score m.total_return ≤ 30) ∧
    (0 ≤ Evaluator.sharpe_score m.sharpe_ratio ∧
      Evaluator.sharpe_score m.sharpe_ratio ≤ 25) ∧
    (0 ≤ Evaluator.drawdown_score m.max_drawdown ∧
      Evaluator.drawdown_score m.max_drawdown ≤ 20) ∧
    (0 ≤ Evaluator.win_rate_score m.win_rate ∧
      Evaluator.win_rate_score m.win_rate ≤ 15) ∧
    (0 ≤ Evaluator.trades_score m.total_trades ∧
      Evaluator.trades_score m.total_trades ≤ 10) := by
  obtain ⟨r0, r30⟩ := return_score_bounds m.total_return
  obtain ⟨s0, s25⟩ := sharpe_score_bounds m.sharpe_ratio
  obtain ⟨d0, d20⟩ := drawdown_score_bounds m.max_drawdown
  obtain ⟨w0, w15⟩ := win_rate_score_bounds m.win_rate
  obtain ⟨t0, t10⟩ := trades_score_bounds m.total_trades
  have hsum0 : 0 ≤ Evaluator.return_score m.total_return
      + Evaluator.sharpe_score m.sharpe_ratio
      + Evaluator.drawdown_score m.max_drawdown
      + Evaluator.win_rate_score m.win_rate
      + Evaluator.trades_score m.total_trades := by linarith
  have hsum100 : Evaluator.return_score m.total_return
      + Evaluator.sharpe_score m.sharpe_ratio
      + Evaluator.drawdown_score m.max_drawdown
      + Evaluator.win_rate_score m.win_rate
      + Evaluator.trades_score m.total_trades ≤ 100 := by linarith
  have heq : Evaluator.calculate_evaluation_score m
      = Evaluator.return_score m.total_return
        + Evaluator.sharpe_score m.sharpe_ratio
        + Evaluator.drawdown_score m.max_drawdown
        + Evaluator.win_rate_score m.win_rate
        + Evaluator.trades_score m.total_trades := by
    unfold Evaluator.calculate_evaluation_score
    dsimp only
    rw [max_eq_right hsum0, min_eq_right hsum100]
  refine ⟨heq, ?_, ?_, ⟨r0, r30⟩, ⟨s0, s25⟩, ⟨d0, d20⟩, ⟨w0, w15⟩, ⟨t0, t10⟩⟩
  · rw [heq]; exact hsum0
  · rw [heq]; exact hsum100

/-- Claim C5: `_determine_viability` returns a REJECTED label whenever
any minimum criterion fails; when all five criteria pass it returns an
APPROVED label exactly when the score is at least 70, the CONDITIONAL
label exactly when the score is in [60, 70), and a REJECTED label exactly
when the score is below 60. -/
theorem determine_viability_labels (m : Evaluator.Metrics) (sc : ℚ) :
    (Evaluator.label_is_approved (Evaluator.determine_viability m sc) = true ↔
       (Evaluator.passes_criteria m ∧ 70 ≤ sc)) ∧
    (Evaluator.label_is_conditional (Evaluator.determine_viability m sc) = true ↔
       (Evaluator.passes_criteria m ∧ 60 ≤ sc ∧ sc < 70)) ∧
    (Evaluator.label_is_rejected (Evaluator.determine_viability m sc) = true ↔
       (¬ Evaluator.passes_criteria m ∨ sc < 60)) := by
  unfold Evaluator.determine_viability Evaluator.passes_criteria
  split_ifs with h1 h2 h3 h4 h5 h6 h7 h8
  · exact ⟨iff_of_false (by decide) (by rintro ⟨⟨h, -⟩, -⟩; linarith),
      iff_of_false (by decide) (by rintro ⟨⟨h, -⟩, -⟩; linarith),
      iff_of_true (by decide) (Or.inl (by rintro ⟨h, -⟩; linarith))⟩
  · exact ⟨iff_of_false (by decide) (by rintro ⟨⟨-, h, -⟩, -⟩; linarith),
      iff_of_false (by decide) (by rintro ⟨⟨-, h, -⟩, -⟩; linarith),
      iff_of_true (by decide) (Or.inl (by rintro ⟨-, h, -⟩; linarith))⟩
  · exact ⟨iff_of_false (by decide) (by rintro ⟨⟨-, -, h, -⟩, -⟩; linarith),
      iff_of_false (by decide) (by rintro ⟨⟨-, -, h, -⟩, -⟩; linarith),
      iff_of_true (by decide) (Or.inl (by rintro ⟨-, -, h, -⟩; linarith))⟩
  · exact ⟨iff_of_false (by decide) (by rintro ⟨⟨-, -, -, h, -⟩, -⟩; linarith),
      iff_of_false (by decide) (by rintro ⟨⟨-, -, -, h, -⟩, -⟩; linarith),
      iff_of_true (by decide) (Or.inl (by rintro ⟨-, -, -, h, -⟩; linarith))⟩
  · exact ⟨iff_of_false (by decide) (by rintro ⟨⟨-, -, -, -, h⟩, -⟩; linarith),
      iff_of_false (by decide) (by rintro ⟨⟨-, -, -, -, h⟩, -⟩; linarith),
      iff_of_true (by decide) (Or.inl (by rintro ⟨-, -, -, -, h⟩; linarith))⟩
  all_goals
    have hp : Evaluator.criteria.min_total_return ≤ m.total_return ∧
        Evaluator.criteria.min_sharpe_ratio ≤ m.sharpe_ratio ∧
        Evaluator.criteria.max_drawdown ≤ m.max_drawdown ∧
        Evaluator.criteria.min_win_rate ≤ m.win_rate ∧
        Evaluator.criteria.min_trades ≤ m.total_trades :=
      ⟨le_of_not_lt h1, le_of_not_lt h2, le_of_not_lt h3, le_of_not_lt h4,
        le_of_not_lt h5⟩
  · exact ⟨iff_of_true (by decide) ⟨hp, by linarith⟩,
      iff_of_false (by decide) (by rintro ⟨-, -, h⟩; linarith),
      iff_of_false (by decide) (by rintro (hn | h); exact hn hp; linarith)⟩
  · exact ⟨iff_of_true (by decide) ⟨hp, by linarith⟩,
      iff_of_false (by decide) (by rintro ⟨-, -, h⟩; linarith),
      iff_of_false (by decide) (by rintro (hn | h); exact hn hp; linarith)⟩
  · exact ⟨iff_of_false (by decide) (by rintro ⟨-, h⟩; linarith),
      iff_of_true (by decide) ⟨hp, by linarith, by linarith⟩,
      iff_of_false (by decide) (by rintro (hn | h); exact hn hp; linarith)⟩
  · exact ⟨iff_of_false (by decide) (by rintro ⟨-, h⟩; linarith),
      iff_of_false (by decide) (by rintro ⟨-, h, -⟩; linarith),
      iff_of_true (by decide) (Or.inr (by linarith))⟩

/-- Every sentiment-method weight is positive. -/
lemma weight_pos (m : Sentiment.SMethod) : 0 < Sentiment.weight m := by
  cases m <;> norm_num [Sentiment.weight]

/-- A sum of weights over any list of methods is nonnegative. -/
lemma sum_weights_nonneg (l : List Sentiment.SMethod) :
    0 ≤ (l.map (fun m => Sentiment.weight m)).sum := by
  induction l with
  | nil => simp
  | cons hd tl ih =>
      simp only [List.map_cons, List.sum_cons]
      have := weight_pos hd
      linarith

/-- A sum of weights over a nonempty list of methods is positive. -/
lemma sum_weights_pos (l : List Sentiment.SMethod) (h : l ≠ []) :
    0 < (l.map (fun m => Sentiment.weight m)).sum := by
  cases l with
  | nil => exact absurd rfl h
  | cons hd tl =>
      simp only [List.map_cons, List.sum_cons]
      have h1 := weight_pos hd
      have h2 := sum_weights_nonneg tl
      linarith

/-- Claim C7: with at least one method used, the blended sentiment score
is the weighted average of the method scores (weights 0.4, 0.3, 0.2, 0.1,
normalized by the total weight of the methods used), and the final label
is positive exactly above 0.1, negative exactly below -0.1, and neutral
otherwise. -/
theorem combine_sentiment_weighted_average
    (results : Sentiment.SMethod → Sentiment.MethodScore)
    (used : List Sentiment.SMethod) (h : used ≠ []) :
    (Sentiment.combine_sentiment_results results used).sentiment_score
      = (used.map (fun m => (results m).score * Sentiment.weight m)).sum
        / (used.map (fun m => Sentiment.weight m)).sum ∧
    ((Sentiment.combine_sentiment_results results used).sentiment_label
        = "positive" ↔
      (1 : ℚ)/10 <
        (Sentiment.combine_sentiment_results results used).sentiment_score) ∧
    ((Sentiment.combine_sentiment_results results used).sentiment_label
        = "negative" ↔
      (Sentiment.combine_sentiment_results results used).sentiment_score
        < -(1 : ℚ)/10) ∧
    ((Sentiment.combine_sentiment_results results used).sentiment_label
        = "neutral" ↔
      (-(1 : ℚ)/10 ≤
        (Sentiment.combine_sentiment_results results used).sentiment_score ∧
       (Sentiment.combine_sentiment_results results used).sentiment_score
        ≤ (1 : ℚ)/10)) := by
  have hW := sum_weights_pos used h
  have hne : used.isEmpty = false := by
    cases used with
    | nil => exact absurd rfl h
    | cons hd tl => rfl
  unfold Sentiment.combine_sentiment_results
  simp only [hne, Bool.false_eq_true, if_false]
  rw [if_pos hW]
  refine ⟨rfl, ?_, ?_, ?_⟩
  · split_ifs with hpos hneg
    · exact iff_of_true rfl hpos
    · exact iff_of_false (by decide) (by intro hc; linarith)
    · exact iff_of_false (by decide) (by intro hc; linarith)
  · split_ifs with hpos hneg
    · exact iff_of_false (by decide) (by intro hc; linarith)
    · exact iff_of_true rfl (by linarith)
    · exact iff_of_false (by decide) (by intro hc; linarith)
  · split_ifs with hpos hneg
    · exact iff_of_false (by decide) (by rintro ⟨-, hc⟩; linarith)
    · exact iff_of_false (by decide) (by rintro ⟨hc, -⟩; linarith)
    · exact iff_of_true rfl ⟨by linarith, by linarith⟩

/-- Claim C7 witness: with only the financial-keywords method used and a
method score of 1/2, the blend is (1/2 times 0.4)/0.4 and the label is
positive. -/
theorem combine_sentiment_weighted_average_witness :
    (Sentiment.combine_sentiment_results Sentiment.sampleResults
        Sentiment.sampleMethods).sentiment_score
      = (Sentiment.sampleMethods.map
          (fun m => (Sentiment.sampleResults m).score * Sentiment.weight m)).sum
        / (Sentiment.sampleMethods.map (fun m => Sentiment.weight m)).sum :=
  (combine_sentiment_weighted_average Sentiment.sampleResults
      Sentiment.sampleMethods (by decide)).1

/-- Claim C4: in the backtest replay, once a row has at least 20 rows of
history and the strategy returns a result, a BUY is recorded exactly when
the signal is BUY, no position is open, the confidence exceeds 0.6, and
at least one whole share fits in the requested position size; a SELL is
recorded exactly when the signal is SELL, a position is open, and the
confidence exceeds 0.6.  After the loop, an open position is sold at the
last row's close price and the reported final capital is the resulting
cash; with no open position the final capital is the cash already held. -/
theorem backtest_trade_execution_rules (strat : Backtest.Strategy) :
    (∀ (pref : List Backtest.Row) (row : Backtest.Row)
       (st : Backtest.BTState) (res : Backtest.StratResult),
       20 ≤ pref.length → strat pref st.capital = some res →
       (((Backtest.step strat pref row st).trades
           = st.trades ++ [Backtest.buy_record row res]) ↔
         (res.signal = "BUY" ∧ st.position = 0 ∧ (6:ℚ)/10 < res.confidence ∧
          1 ≤ pyInt (res.position_size / row.close))) ∧
       (((Backtest.step strat pref row st).trades
           = st.trades ++ [Backtest.sell_record row st res]) ↔
         (res.signal = "SELL" ∧ 0 < st.position ∧ (6:ℚ)/10 < res.confidence))) ∧
    (∀ (data : List Backtest.Row) (init : ℚ) (st : Backtest.BTState),
       st = Backtest.runRows strat [] data (Backtest.init_state init) →
       (0 < st.position →
         ∃ last, data.getLast? = some last ∧
           (Backtest.execute_backtest strat data init).trades
             = st.trades ++ [Backtest.closing_record last st] ∧
           (Backtest.execute_backtest strat data init).final_capital
             = st.capital + (st.position : ℚ) * last.close) ∧
       (st.position = 0 →
         (Backtest.execute_backtest strat data init).trades = st.trades ∧
         (Backtest.execute_backtest strat data init).final_capital
           = st.capital)) := by
  constructor
  · intro pref row st res h20 hstrat
    unfold Backtest.step
    rw [if_neg (by omega), hstrat]
    dsimp only
    split_ifs with hb hs hse
    · refine ⟨iff_of_true rfl ⟨hb.1, hb.2.1, hb.2.2, by omega⟩,
        iff_of_false ?_ ?_⟩
      · simp [Backtest.buy_record, Backtest.sell_record]
      · rintro ⟨h1, -, -⟩
        exact absurd (hb.1.symm.trans h1) (by decide)
    · refine ⟨iff_of_false (by simp) ?_, iff_of_false (by simp) ?_⟩
      · rintro ⟨-, -, -, h1⟩
        exact hs (by omega)
      · rintro ⟨h1, -, -⟩
        exact absurd (hb.1.symm.trans h1) (by decide)
    · refine ⟨iff_of_false ?_ ?_, iff_of_true rfl hse⟩
      · simp [Backtest.buy_record, Backtest.sell_record]
      · rintro ⟨h1, h2, h3, -⟩
        exact hb ⟨h1, h2, h3⟩
    · refine ⟨iff_of_false (by simp) ?_, iff_of_false (by simp) ?_⟩
      · rintro ⟨h1, h2, h3, -⟩
        exact hb ⟨h1, h2, h3⟩
      · exact hse
  · intro data init st hst
    constructor
    · intro hpos
      have hne : data ≠ [] := by
        intro hd
        subst hd
        rw [hst] at hpos
        simp [Backtest.runRows, Backtest.init_state] at hpos
      obtain ⟨last, hlast⟩ : ∃ x, data.getLast? = some x := by
        cases hl : data.getLast? with
        | none => exact absurd (by simpa using hl) hne
        | some x => exact ⟨x, rfl⟩
      refine ⟨last, hlast, ?_, ?_⟩
      · unfold Backtest.execute_backtest
        rw [← hst]
        dsimp only
        rw [if_pos hpos, hlast]
      · unfold Backtest.execute_backtest
        rw [← hst]
        dsimp only
        rw [if_pos hpos, hlast]
    · intro hz
      unfold Backtest.execute_backtest
      rw [← hst]
      dsimp only
      rw [if_neg (by omega)]
      exact ⟨rfl, rfl⟩

/-- Claim C4 witness: with 20 rows of history, a flat position, a BUY
signal at confidence 0.9 and a requested position size of 1000 at price
100, the step records the BUY trade. -/
theorem backtest_trade_execution_rules_witness :
    (Backtest.step Backtest.constantBuy (List.replicate 20 Backtest.row100)
        Backtest.row100 (Backtest.init_state 10000)).trades
      = (Backtest.init_state 10000).trades
        ++ [Backtest.buy_record Backtest.row100
              { signal := "BUY", confidence := 9/10, position_size := 1000 }] :=
  ((backtest_trade_execution_rules Backtest.constantBuy).1
      (List.replicate 20 Backtest.row100) Backtest.row100
      (Backtest.init_state 10000)
      { signal := "BUY", confidence := 9/10, position_size := 1000 }
      (by decide) rfl).1.mpr
    ⟨rfl, rfl, by norm_num, by with_unfolding_all decide⟩

/-- Appending a record adds its cost to the BUY-cost total. -/
lemma sumCosts_append (ts : List Backtest.Trade) (t : Backtest.Trade) :
    Backtest.sumCosts (ts ++ [t]) = Backtest.sumCosts ts + t.cost.getD 0 := by
  simp [Backtest.sumCosts]

/-- Appending a record adds its revenue to the SELL-revenue total. -/
lemma sumRevenues_append (ts : List Backtest.Trade) (t : Backtest.Trade) :
    Backtest.sumRevenues (ts ++ [t])
      = Backtest.sumRevenues ts + t.revenue.getD 0 := by
  simp [Backtest.sumRevenues]

/-- Appending a trade to a well-formed alternating sequence: a BUY of
positively many shares is legal from a flat end state, a SELL of exactly
the open shares is legal from an open end state; either way the new
sequence is well formed and its end state is the appended trade's
effect. -/
lemma seqOk_snoc (t : Backtest.Trade) :
    ∀ (ts : List Backtest.Trade) (p : ℤ),
      Backtest.seqOk ts p = true →
      ((Backtest.endPos ts p = 0 ∧ t.action = Backtest.Action.BUY ∧
          0 < t.shares) ∨
       (0 < Backtest.endPos ts p ∧ t.action = Backtest.Action.SELL ∧
          t.shares = Backtest.endPos ts p)) →
      Backtest.seqOk (ts ++ [t]) p = true ∧
      Backtest.endPos (ts ++ [t]) p
        = (if t.action = Backtest.Action.BUY then t.shares else 0) := by
  intro ts
  induction ts with
  | nil =>
      intro p hok hcase
      cases hcase with
      | inl h =>
          obtain ⟨hp, hb, hsh⟩ := h
          simp only [Backtest.endPos] at hp
          subst hp
          constructor
          · simp [Backtest.seqOk, hb, hsh]
          · simp [Backtest.endPos]
      | inr h =>
          obtain ⟨hp, hs, hsh⟩ := h
          simp only [Backtest.endPos] at hp hsh
          constructor
          · have hpne : p ≠ 0 := by omega
            simp [Backtest.seqOk, hpne, hs, hsh]
          · simp [Backtest.endPos]
  | cons hd tl ih =>
      intro p hok hcase
      by_cases hp : p = 0
      · subst hp
        simp only [Backtest.seqOk] at hok
        simp at hok
        obtain ⟨⟨hbd, hshd⟩, htl⟩ := hok
        have hend : Backtest.endPos (hd :: tl) 0
            = Backtest.endPos tl hd.shares := by
          simp [Backtest.endPos, hbd]
        rw [hend] at hcase
        obtain ⟨ih1, ih2⟩ := ih hd.shares htl hcase
        constructor
        · rw [List.cons_append, Backtest.seqOk]
          simp [hbd, hshd, ih1]
        · rw [List.cons_append]
          rw [show Backtest.endPos (hd :: (tl ++ [t])) 0
              = Backtest.endPos (tl ++ [t]) hd.shares by
            simp [Backtest.endPos, hbd]]
          exact ih2
      · simp only [Backtest.seqOk, if_neg hp] at hok
        simp at hok
        obtain ⟨⟨hsd, hshd⟩, htl⟩ := hok
        have hend : Backtest.endPos (hd :: tl) p = Backtest.endPos tl 0 := by
          simp [Backtest.endPos, hsd]
        rw [hend] at hcase
        obtain ⟨ih1, ih2⟩ := ih 0 htl hcase
        constructor
        · rw [List.cons_append, Backtest.seqOk]
          simp [hp, hsd, hshd, ih1]
        · rw [List.cons_append]
          rw [show Backtest.endPos (hd :: (tl ++ [t])) p
              = Backtest.endPos (tl ++ [t]) 0 by
            simp [Backtest.endPos, hsd]]
          exact ih2

/-- One loop iteration preserves the backtest coupling invariant. -/
lemma step_inv (strat : Backtest.Strategy) (pref : List Backtest.Row)
    (row : Backtest.Row) (st : Backtest.BTState) (init : ℚ)
    (h : Backtest.Inv init st) :
    Backtest.Inv init (Backtest.step strat pref row st) := by
  unfold Backtest.Inv at h ⊢
  obtain ⟨h1, h2, h3, h4, h5⟩ := h
  unfold Backtest.step
  split
  · exact ⟨h1, h2, h3, h4, h5⟩
  · cases hs : strat pref st.capital with
    | none => exact ⟨h1, h2, h3, h4, h5⟩
    | some res =>
        dsimp only
        split_ifs with hb hsh hse
        · -- BUY executed
          obtain ⟨hA, hB⟩ := seqOk_snoc (Backtest.buy_record row res)
            st.trades 0 h1 (Or.inl ⟨h2.trans hb.2.1, rfl, hsh⟩)
          refine ⟨hA, ?_, le_of_lt hsh, ?_, ?_⟩
          · exact hB.trans (if_pos rfl)
          · rw [sumCosts_append, sumRevenues_append]
            simp only [Backtest.buy_record, Option.getD_some, Option.getD_none]
            rw [h4]
            ring
          · simp only [List.all_append, List.all_cons, List.all_nil,
              Bool.and_true, Bool.and_eq_true, h5, decide_eq_true_eq]
            exact ⟨trivial, le_of_lt hsh⟩
        · -- BUY signal, but no whole share fits
          refine ⟨h1, h2, h3, h4, ?_⟩
          simp only [List.all_append, List.all_cons, List.all_nil,
            Bool.and_true, Bool.and_eq_true, h5, decide_eq_true_eq]
          exact ⟨trivial, h3⟩
        · -- SELL executed
          obtain ⟨hA, hB⟩ := seqOk_snoc (Backtest.sell_record row st res)
            st.trades 0 h1
            (Or.inr ⟨by rw [h2]; exact hse.2.1, rfl, h2.symm⟩)
          refine ⟨hA, ?_, le_refl 0, ?_, ?_⟩
          · rw [hB]
            simp [Backtest.sell_record]
          · rw [sumCosts_append, sumRevenues_append]
            simp only [Backtest.sell_record, Option.getD_some, Option.getD_none]
            rw [h4]
            ring
          · simp only [List.all_append, List.all_cons, List.all_nil,
              Bool.and_true, Bool.and_eq_true, h5, decide_eq_true_eq]
            exact ⟨trivial, le_refl 0⟩
        · -- no trade
          refine ⟨h1, h2, h3, h4, ?_⟩
          simp only [List.all_append, List.all_cons, List.all_nil,
            Bool.and_true, Bool.and_eq_true, h5, decide_eq_true_eq]
          exact ⟨trivial, h3⟩

/-- The whole loop preserves the backtest coupling invariant. -/
lemma runRows_inv (strat : Backtest.Strategy) :
    ∀ (rest past : List Backtest.Row) (st : Backtest.BTState) (init : ℚ),
      Backtest.Inv init st →
      Backtest.Inv init (Backtest.runRows strat past rest st) := by
  intro rest
  induction rest with
  | nil => intro past st init h; exact h
  | cons r rs ih =>
      intro past st init h
      rw [Backtest.runRows]
      exact ih _ _ _ (step_inv _ _ _ _ _ h)

/-- Claim C9: over any data and strategy, the backtest's recorded trades
strictly alternate BUY then SELL starting with a BUY, each SELL closes
exactly the share count of the preceding BUY, replaying the trades from a
flat position ends flat (so the position after the final closing step is
zero and is never negative — every recorded equity point carries a
nonnegative position), and the reported final capital is the initial
capital minus all recorded BUY costs plus all recorded SELL revenues. -/
theorem backtest_state_invariants (strat : Backtest.Strategy)
    (data : List Backtest.Row) (init : ℚ) :
    Backtest.seqOk (Backtest.execute_backtest strat data init).trades 0
      = true ∧
    Backtest.endPos (Backtest.execute_backtest strat data init).trades 0
      = 0 ∧
    (Backtest.execute_backtest strat data init).equity_curve.all
      (fun ep => decide (0 ≤ ep.position)) = true ∧
    (Backtest.execute_backtest strat data init).final_capital
      = init
        - Backtest.sumCosts (Backtest.execute_backtest strat data init).trades
        + Backtest.sumRevenues
            (Backtest.execute_backtest strat data init).trades := by
  have hinit : Backtest.Inv init (Backtest.init_state init) := by
    unfold Backtest.Inv Backtest.init_state
    exact ⟨rfl, rfl, le_refl 0,
      by simp [Backtest.sumCosts, Backtest.sumRevenues], rfl⟩
  have hrun := runRows_inv strat data [] (Backtest.init_state init) init hinit
  unfold Backtest.Inv at hrun
  set st := Backtest.runRows strat [] data (Backtest.init_state init) with hst
  obtain ⟨h1, h2, h3, h4, h5⟩ := hrun
  unfold Backtest.execute_backtest
  rw [← hst]
  dsimp only
  by_cases hpos : 0 < st.position
  · rw [if_pos hpos]
    cases hl : data.getLast? with
    | none =>
        exfalso
        have hd : data = [] := by simpa using hl
        subst hd
        rw [hst] at hpos
        simp [Backtest.runRows, Backtest.init_state] at hpos
    | some last =>
        dsimp only
        obtain ⟨hA, hB⟩ := seqOk_snoc (Backtest.closing_record last st)
          st.trades 0 h1
          (Or.inr ⟨by rw [h2]; exact hpos, rfl, h2.symm⟩)
        refine ⟨hA, ?_, h5, ?_⟩
        · rw [hB]
          simp [Backtest.closing_record]
        · rw [sumCosts_append, sumRevenues_append]
          simp only [Backtest.closing_record, Option.getD_some,
            Option.getD_none]
          rw [h4]
          ring
  · rw [if_neg hpos]
    have hz : st.position = 0 := by omega
    exact ⟨h1, h2.trans hz, h5, h4⟩

/-- With a nonnegative close price, one loop iteration only appends
records of the shape `_execute_backtest` writes. -/
lemma step_shape (strat : Backtest.Strategy) (pref : List Backtest.Row)
    (row : Backtest.Row) (st : Backtest.BTState) (hrow : 0 ≤ row.close)
    (h : st.trades.all Backtest.trade_shape_ok = true) :
    (Backtest.step strat pref row st).trades.all Backtest.trade_shape_ok
      = true := by
  unfold Backtest.step
  split
  · exact h
  · cases hs : strat pref st.capital with
    | none => exact h
    | some res =>
        dsimp only
        split_ifs with hb hsh hse
        · simp only [List.all_append, List.all_cons, List.all_nil,
            Bool.and_true, Bool.and_eq_true]
          refine ⟨h, ?_⟩
          have hc : (0 : ℚ) ≤ (pyInt (res.position_size / row.close) : ℚ)
              * row.close :=
            mul_nonneg (by exact_mod_cast le_of_lt hsh) hrow
          simp [Backtest.trade_shape_ok, Backtest.buy_record, hc]
        · exact h
        · simp only [List.all_append, List.all_cons, List.all_nil,
            Bool.and_true, Bool.and_eq_true]
          exact ⟨h, by simp [Backtest.trade_shape_ok, Backtest.sell_record]⟩
        · exact h

/-- With nonnegative close prices, the loop only writes records of the
shape `_execute_backtest` writes. -/
lemma runRows_shape (strat : Backtest.Strategy) :
    ∀ (rest past : List Backtest.Row) (st : Backtest.BTState),
      (∀ r ∈ rest, 0 ≤ r.close) →
      st.trades.all Backtest.trade_shape_ok = true →
      (Backtest.runRows strat past rest st).trades.all Backtest.trade_shape_ok
        = true := by
  intro rest
  induction rest with
  | nil => intro past st _ h; exact h
  | cons r rs ih =>
      intro past st hrows h
      rw [Backtest.runRows]
      exact ih _ _ (fun x hx => hrows x (List.mem_cons_of_mem r hx))
        (step_shape _ _ _ _ (hrows r (List.mem_cons_self r rs)) h)

/-- On a trade list of the shape `_execute_backtest` writes, the
reported win-rate formula counts exactly the SELL records with positive
revenue, against all records. -/
lemma win_rate_eq_of_shape (ts : List Backtest.Trade)
    (h : ts.all Backtest.trade_shape_ok = true) :
    Backtest.win_rate ts
      = ((ts.filter (fun t => decide (t.action = Backtest.Action.SELL) &&
            decide (0 < t.revenue.getD 0))).length : ℚ)
        / (ts.length : ℚ) * 100 := by
  have hfc : ts.filter (fun t => decide (t.cost.getD 0 < t.revenue.getD 0))
      = ts.filter (fun t => decide (t.action = Backtest.Action.SELL) &&
          decide (0 < t.revenue.getD 0)) := by
    apply List.filter_congr
    intro t ht
    have hsh := (List.all_eq_true.mp h) t ht
    unfold Backtest.trade_shape_ok at hsh
    cases hact : t.action with
    | BUY =>
        rw [hact] at hsh
        simp only [Bool.and_eq_true, decide_eq_true_eq] at hsh
        obtain ⟨hrev, hcost⟩ := hsh
        have hnlt : ¬ (t.cost.getD 0 < (0 : ℚ)) := not_lt.mpr hcost
        simp [hact, hrev, hnlt]
    | SELL =>
        rw [hact] at hsh
        simp only [decide_eq_true_eq] at hsh
        simp [hact, hsh]
  unfold Backtest.win_rate
  by_cases he : ts.isEmpty
  · have hnil : ts = [] := by simpa [List.isEmpty_iff] using he
    subst hnil
    simp
  · rw [if_neg he, hfc]

/-- Claim C6 (amended): with nonnegative close prices, the reported
win_rate equals 100 times the number of SELL records with positive
revenue divided by the total number of trade records — BUY records count
in the denominator and never as wins, because each record's own
`revenue` (absent on BUYs) is compared against its own `cost` (absent on
SELLs), not against the cost of the shares sold. -/
theorem win_rate_counts_positive_sells (strat : Backtest.Strategy)
    (data : List Backtest.Row) (init : ℚ)
    (hdata : data.all (fun r => decide (0 ≤ r.close)) = true) :
    Backtest.win_rate (Backtest.execute_backtest strat data init).trades
      = (((Backtest.execute_backtest strat data init).trades.filter
            (fun t => decide (t.action = Backtest.Action.SELL) &&
              decide (0 < t.revenue.getD 0))).length : ℚ)
        / (((Backtest.execute_backtest strat data init).trades.length : ℚ))
        * 100 := by
  have hrows : ∀ r ∈ data, 0 ≤ r.close := by
    intro r hr
    have := (List.all_eq_true.mp hdata) r hr
    simpa using this
  have hloop := runRows_shape strat data [] (Backtest.init_state init) hrows
    (by simp [Backtest.init_state])
  have hshape : (Backtest.execute_backtest strat data init).trades.all
      Backtest.trade_shape_ok = true := by
    unfold Backtest.execute_backtest
    dsimp only
    split_ifs with hpos
    · cases hl : data.getLast? with
      | none => exact hloop
      | some last =>
          dsimp only
          simp only [List.all_append, List.all_cons, List.all_nil,
            Bool.and_true, Bool.and_eq_true]
          exact ⟨hloop,
            by simp [Backtest.trade_shape_ok, Backtest.closing_record]⟩
    · exact hloop
  exact win_rate_eq_of_shape _ hshape

/-- Claim C6 witness: the amended win-rate identity evaluated on the
concrete losing-trade backtest. -/
theorem win_rate_counts_positive_sells_witness :
    Backtest.win_rate (Backtest.execute_backtest Backtest.sampleStrategy
        Backtest.sampleData 1000).trades
      = (((Backtest.execute_backtest Backtest.sampleStrategy
            Backtest.sampleData 1000).trades.filter
            (fun t => decide (t.action = Backtest.Action.SELL) &&
              decide (0 < t.revenue.getD 0))).length : ℚ)
        / (((Backtest.execute_backtest Backtest.sampleStrategy
            Backtest.sampleData 1000).trades.length : ℚ)) * 100 :=
  win_rate_counts_positive_sells Backtest.sampleStrategy Backtest.sampleData
    1000 (by with_unfolding_all decide)

/-- Claim C6 counterexample: a backtest whose single round trip buys one
share at 100 and sells it at 50 — a losing trade — reports a win rate of
50, while the claimed standard formula (profitable round trips over round
trips) gives 0. -/
theorem win_rate_differs_from_round_trip_rate :
    Backtest.win_rate (Backtest.execute_backtest Backtest.sampleStrategy
        Backtest.sampleData 1000).trades = 50 ∧
    Backtest.claim_win_rate (Backtest.execute_backtest Backtest.sampleStrategy
        Backtest.sampleData 1000).trades = 0 ∧
    (Backtest.execute_backtest Backtest.sampleStrategy Backtest.sampleData
        1000).trades.length = 2 := by
  with_unfolding_all decide

/-- Claim C10: `calculate_position_size` always returns at least 1 share,
and returns exactly 1 whenever the risk-limited position value (portfolio
risk divided by stop loss, capped at 10% of the portfolio) is below the
price of a single share. -/
theorem calculate_position_size_at_least_one
    (s : RiskManager.RiskState) (sym : String) (price confidence : ℚ)
    (hp : 0 < price) :
    1 ≤ RiskManager.calculate_position_size s sym price confidence ∧
    (min (s.portfolio_value * (RiskManager.max_portfolio_risk * confidence)
            / RiskManager.stop_loss_pct)
         (s.portfolio_value * RiskManager.max_position_size) < price →
      RiskManager.calculate_position_size s sym price confidence = 1) := by
  unfold RiskManager.calculate_position_size
  refine ⟨le_max_left _ _, fun hlt => ?_⟩
  have hdiv : (min (s.portfolio_value * (RiskManager.max_portfolio_risk * confidence)
      / RiskManager.stop_loss_pct)
      (s.portfolio_value * RiskManager.max_position_size)) / price < 1 :=
    (div_lt_one hp).mpr hlt
  have hq := pyInt_nonpos_of_lt_one _ hdiv
  dsimp only
  exact max_eq_left (hq.trans (by norm_num))

/-- Claim C2: `check_risk` approves a trade exactly when all five risk
checks pass — position size at most 10% of the portfolio, trade risk
(trade value times the 2% stop loss) at most 2% of the portfolio, daily
loss within -5%, drawdown at most 15%, and total exposure to the symbol
at most 20% (2 times the 10% position limit) — and the returned `checks`
dict records, under the name of each check, exactly whether it passed, so
a rejected result names the failed checks. -/
theorem check_risk_approves_iff_all_pass
    (s : RiskManager.RiskState) (sid sym : String) (q : ℤ)
    (price? : Option ℚ) :
    ((RiskManager.check_risk s sid sym q price?).1.approved = true ↔
      ((q : ℚ) * price?.getD (RiskManager.get_current_price sym)
          / s.portfolio_value ≤ 1/10 ∧
       (q : ℚ) * price?.getD (RiskManager.get_current_price sym) * (1/50)
          / s.portfolio_value ≤ 1/50 ∧
       -(1/20 : ℚ) ≤ s.daily_pnl / s.portfolio_value ∧
       (s.max_portfolio_value - s.portfolio_value) / s.max_portfolio_value
          ≤ 3/20 ∧
       (((s.positions.lookup sym).map RiskManager.Position.value).getD 0 +
          (q : ℚ) * price?.getD (RiskManager.get_current_price sym))
          / s.portfolio_value ≤ (1/10 : ℚ) * 2)) ∧
    (RiskManager.check_risk s sid sym q price?).1.checks =
      [("position_size",
        decide ((q : ℚ) * price?.getD (RiskManager.get_current_price sym)
          / s.portfolio_value ≤ 1/10)),
       ("portfolio_risk",
        decide ((q : ℚ) * price?.getD (RiskManager.get_current_price sym) * (1/50)
          / s.portfolio_value ≤ 1/50)),
       ("daily_loss",
        decide (-(1/20 : ℚ) ≤ s.daily_pnl / s.portfolio_value)),
       ("drawdown",
        decide ((s.max_portfolio_value - s.portfolio_value)
          / s.max_portfolio_value ≤ 3/20)),
       ("exposure",
        decide ((((s.positions.lookup sym).map RiskManager.Position.value).getD 0 +
          (q : ℚ) * price?.getD (RiskManager.get_current_price sym))
          / s.portfolio_value ≤ (1/10 : ℚ) * 2))] := by
  constructor
  · unfold RiskManager.check_risk RiskManager.check_position_size
      RiskManager.check_portfolio_risk RiskManager.check_daily_loss_limit
      RiskManager.check_drawdown_limit RiskManager.check_total_exposure
      RiskManager.max_position_size RiskManager.max_portfolio_risk
      RiskManager.max_daily_loss RiskManager.max_drawdown
      RiskManager.stop_loss_pct
    dsimp only
    split
    next hall =>
      simp only [List.all_cons, List.all_nil, Bool.and_true, Bool.and_eq_true,
        decide_eq_true_eq] at hall
      exact iff_of_true rfl (by tauto)
    next hall =>
      refine iff_of_false (by simp) fun hc => hall ?_
      simp only [List.all_cons, List.all_nil, Bool.and_true, Bool.and_eq_true,
        decide_eq_true_eq]
      tauto
  · unfold RiskManager.check_risk
    dsimp only
    split <;> rfl

/-- Claim C8: `check_risk` is atomic on the risk manager's state: the
positions map changes (through `update_position`) only when the trade is
approved; a rejected trade leaves the state unchanged, and
`portfolio_value`, `daily_pnl` and `max_portfolio_value` are never
touched by `check_risk` at all. -/
theorem check_risk_state_atomic
    (s : RiskManager.RiskState) (sid sym : String) (q : ℤ)
    (price? : Option ℚ) :
    ((RiskManager.check_risk s sid sym q price?).1.approved = false →
       (RiskManager.check_risk s sid sym q price?).2 = s) ∧
    ((RiskManager.check_risk s sid sym q price?).1.approved = true →
       (RiskManager.check_risk s sid sym q price?).2 =
         RiskManager.update_position s sym q
           (price?.getD (RiskManager.get_current_price sym)) sid) ∧
    (RiskManager.check_risk s sid sym q price?).2.portfolio_value
      = s.portfolio_value ∧
    (RiskManager.check_risk s sid sym q price?).2.daily_pnl = s.daily_pnl ∧
    (RiskManager.check_risk s sid sym q price?).2.max_portfolio_value
      = s.max_portfolio_value := by
  unfold RiskManager.check_risk
  dsimp only
  split
  · exact ⟨fun h => absurd h (by simp), fun _ => rfl,
      rfl, rfl, rfl⟩
  · exact ⟨fun _ => rfl, fun h => absurd h (by simp), rfl, rfl, rfl⟩

/-- Claim C8 witness: a trade of 10000 shares at price 100 (position risk
10) is rejected from the initial state, and the state is unchanged. -/
theorem check_risk_state_atomic_witness :
    (RiskManager.check_risk RiskManager.sampleState "s1" "AAPL" 10000
      (some 100)).2 = RiskManager.sampleState :=
  (check_risk_state_atomic RiskManager.sampleState "s1" "AAPL" 10000
      (some 100)).1 (by with_unfolding_all decide)

/-- Claim C10 witness: with the initial portfolio of 100000 and a price of
1000000 per share, the risk-limited position value (10000) is below the
share price, and one share is still returned. -/
theorem calculate_position_size_at_least_one_witness :
    RiskManager.calculate_position_size RiskManager.sampleState "AAPL"
      1000000 1 = 1 :=
  (calculate_position_size_at_least_one RiskManager.sampleState "AAPL"
      1000000 1 (by norm_num)).2 (by with_unfolding_all decide)
